import Mathlib

/-!
Verification development for the composer_lsp sources (`src/composer.rs`,
`src/packagist.rs`, `src/main.rs`).

The Rust code is shallowly embedded: strings are Lean `String`s manipulated
through character lists, the `semver` crate's `Version`/`VersionReq` (the
external dependency used by `check_for_package_update`) is modelled after the
crate's documented v1 parsing and matching rules, `serde_json` documents are
modelled by an executable JSON parser, Rust panics (`unwrap`/`expect`) are
modelled by `Except.error`, and file/network reads are modelled by passing the
read text (or a fetch outcome function) as an explicit argument.
Iteration over a Rust `HashMap` has no guaranteed order, so where the source
iterates one (the decoded `require`/`require-dev` maps) the iteration order is
an explicit argument constrained to be a permutation of the entries.
-/

deriving instance DecidableEq for Except

namespace ComposerLsp

/-! ### Character-list utilities modelling Rust `str` operations -/

/-- Model of Rust `str::starts_with` on character lists (pattern first). -/
def startsWithList : List Char → List Char → Bool
  | [], _ => true
  | _ :: _, [] => false
  | p :: ps, c :: cs => p == c && startsWithList ps cs

/-- Model of Rust `str::contains` (substring search, pattern first). -/
def containsSub (pat : List Char) : List Char → Bool
  | [] => startsWithList pat []
  | c :: cs => startsWithList pat (c :: cs) || containsSub pat cs

/-- Model of Rust `str::ends_with`. -/
def endsWithList (l pat : List Char) : Bool :=
  startsWithList pat.reverse l.reverse

def endsWithStr (s pat : String) : Bool :=
  endsWithList s.toList pat.toList

/-- Fuel-indexed engine for Rust `str::replace`: replaces non-overlapping
occurrences of `pat` left to right.  `fuel ≥ length` makes it total. -/
def replaceFuel (pat rep : List Char) : Nat → List Char → List Char
  | _, [] => []
  | 0, l => l
  | Nat.succ fuel, c :: cs =>
    if pat ≠ [] ∧ startsWithList pat (c :: cs) then
      rep ++ replaceFuel pat rep fuel (List.drop (pat.length - 1) cs)
    else
      c :: replaceFuel pat rep fuel cs

/-- Model of Rust `String::replace`. -/
def replaceStr (s pat rep : String) : String :=
  (replaceFuel pat.toList rep.toList s.toList.length s.toList).asString

/-- Model of Rust `str::split` on a single separator character. -/
def splitChar (sep : Char) : List Char → List (List Char)
  | [] => [[]]
  | c :: cs =>
    match splitChar sep cs with
    | [] => [[]]
    | r :: rs => if c == sep then [] :: r :: rs else (c :: r) :: rs

/-- Fuel-indexed model of Rust `str::split` on a multi-character separator. -/
def splitSubFuel (pat : List Char) : Nat → List Char → List (List Char)
  | _, [] => [[]]
  | 0, l => [l]
  | Nat.succ fuel, c :: cs =>
    if pat ≠ [] ∧ startsWithList pat (c :: cs) then
      [] :: splitSubFuel pat fuel (List.drop (pat.length - 1) cs)
    else
      match splitSubFuel pat fuel cs with
      | [] => [[c]]
      | r :: rs => (c :: r) :: rs

def isWhite (c : Char) : Bool :=
  c == ' ' || c == '\t' || c == '\n' || c == '\x0d'

def trimList (l : List Char) : List Char :=
  ((l.dropWhile isWhite).reverse.dropWhile isWhite).reverse

/-- Strip one trailing carriage return, as Rust `BufRead::lines` does. -/
def stripCR (l : List Char) : List Char :=
  if l.getLast? = some '\x0d' then l.dropLast else l

/-- Model of Rust `BufRead::lines`: split on `\n`, drop a final empty line,
strip a trailing `\r` from each line. -/
def linesOf (s : String) : List (List Char) :=
  let parts := splitChar '\n' s.toList
  let parts :=
    match parts.getLast? with
    | some [] => parts.dropLast
    | _ => parts
  parts.map stripCR

def digitsToNat (l : List Char) : Nat :=
  l.foldl (fun a c => a * 10 + (c.toNat - 48)) 0

/-! ### The semver crate model (`Version`, `VersionReq`).

`packagist.rs` relies on the external `semver` crate.  The definitions below
model that crate's v1 behaviour: `Version::parse` accepts
`major.minor.patch[-pre][+build]` with no leading zeros in numeric parts, and
`VersionReq::parse`/`matches` implement comma-separated comparators with the
operators `=`, `>`, `>=`, `<`, `<=`, `~`, `^`, wildcards, caret as the default
operator, and the pre-release compatibility rule.  `||` is not part of the
grammar and fails to parse, exactly as in the crate. -/

structure SemVersion where
  major : Nat
  minor : Nat
  patch : Nat
  pre : List String
  build : List String
deriving DecidableEq

def isIdentChar (c : Char) : Bool := c.isAlphanum || c == '-'

/-- Numeric component: nonempty digits, no leading zero, fits in `u64`. -/
def parseNumeric (l : List Char) : Option Nat :=
  if l.isEmpty then none
  else if ¬ (l.all Char.isDigit) then none
  else if l.length > 1 ∧ l.head? = some '0' then none
  else if digitsToNat l < 18446744073709551616 then some (digitsToNat l) else none

def validPreIdent (l : List Char) : Bool :=
  (¬ l.isEmpty) && l.all isIdentChar &&
    (¬ (l.all Char.isDigit) || l.length == 1 || ¬ (l.head? = some '0'))

def validBuildIdent (l : List Char) : Bool :=
  (¬ l.isEmpty) && l.all isIdentChar

def parsePreList (l : List Char) : Option (List String) :=
  let parts := splitChar '.' l
  if parts.all validPreIdent then some (parts.map List.asString) else none

def parseBuildList (l : List Char) : Option (List String) :=
  let parts := splitChar '.' l
  if parts.all validBuildIdent then some (parts.map List.asString) else none

def takeDigits (l : List Char) : List Char × List Char :=
  (l.takeWhile Char.isDigit, l.dropWhile Char.isDigit)

/-- The `-pre`/`+build` tail of a version string. -/
def parseVersionTail (major minor patch : Nat) : List Char → Option SemVersion
  | [] => some ⟨major, minor, patch, [], []⟩
  | '-' :: rest =>
    let preChars := rest.takeWhile (fun c => ¬ (c == '+'))
    let buildPart := rest.dropWhile (fun c => ¬ (c == '+'))
    match parsePreList preChars with
    | none => none
    | some pre =>
      match buildPart with
      | [] => some ⟨major, minor, patch, pre, []⟩
      | _ :: b => (parseBuildList b).map (fun build => ⟨major, minor, patch, pre, build⟩)
  | '+' :: rest => (parseBuildList rest).map (fun build => ⟨major, minor, patch, [], build⟩)
  | _ => none

/-- Model of `semver::Version::parse`. -/
def semVersionParse (s : String) : Option SemVersion :=
  let (d1, r1) := takeDigits s.toList
  match parseNumeric d1, r1 with
  | some major, '.' :: r2 =>
    let (d2, r3) := takeDigits r2
    match parseNumeric d2, r3 with
    | some minor, '.' :: r4 =>
      let (d3, r5) := takeDigits r4
      match parseNumeric d3 with
      | some patch => parseVersionTail major minor patch r5
      | none => none
    | _, _ => none
  | _, _ => none

/-! Pre-release precedence, per the semver spec (and the crate's `Ord` for
`Prerelease`, where the empty pre-release is greatest). -/

def charListLtB : List Char → List Char → Bool
  | [], [] => false
  | [], _ :: _ => true
  | _ :: _, [] => false
  | a :: as, b :: bs => if a == b then charListLtB as bs else Nat.blt a.toNat b.toNat

def identIsNum (s : String) : Bool := s.toList.all Char.isDigit

def preIdentLtB (a b : String) : Bool :=
  match identIsNum a, identIsNum b with
  | true, true => Nat.blt (digitsToNat a.toList) (digitsToNat b.toList)
  | true, false => true
  | false, true => false
  | false, false => charListLtB a.toList b.toList

def preIdentsLtB : List String → List String → Bool
  | [], [] => false
  | [], _ :: _ => true
  | _ :: _, [] => false
  | a :: as, b :: bs => if a == b then preIdentsLtB as bs else preIdentLtB a b

/-- Pre-release lists ordered with the empty list greatest. -/
def preLtB : List String → List String → Bool
  | [], _ => false
  | _ :: _, [] => true
  | a :: as, b :: bs => preIdentsLtB (a :: as) (b :: bs)

/-- Semantic-version precedence (build metadata ignored). -/
def semVerLtB (x y : SemVersion) : Bool :=
  if x.major ≠ y.major then Nat.blt x.major y.major
  else if x.minor ≠ y.minor then Nat.blt x.minor y.minor
  else if x.patch ≠ y.patch then Nat.blt x.patch y.patch
  else preLtB x.pre y.pre

inductive ReqOp
  | exactOp | greaterOp | greaterEqOp | lessOp | lessEqOp | tildeOp | caretOp | wildcardOp
deriving DecidableEq

structure Comparator where
  op : ReqOp
  major : Nat
  minor : Option Nat
  patch : Option Nat
  pre : List String
deriving DecidableEq

structure SemVersionReq where
  comparators : List Comparator
deriving DecidableEq

def isWildChar (c : Char) : Bool := c == '*' || c == 'x' || c == 'X'

/-- Split the operator off the front of a comparator; `true` iff explicit.
The crate's default operator is caret. -/
def parseOpSplit : List Char → ReqOp × List Char × Bool
  | '>' :: '=' :: r => (.greaterEqOp, r, true)
  | '<' :: '=' :: r => (.lessEqOp, r, true)
  | '>' :: r => (.greaterOp, r, true)
  | '<' :: r => (.lessOp, r, true)
  | '=' :: r => (.exactOp, r, true)
  | '^' :: r => (.caretOp, r, true)
  | '~' :: r => (.tildeOp, r, true)
  | r => (.caretOp, r, false)

/-- The `-pre`/`+build` tail of a comparator (build accepted and dropped). -/
def parseComparatorTail (op : ReqOp) (major : Nat) (minor patch : Option Nat) :
    List Char → Option Comparator
  | [] => some ⟨op, major, minor, patch, []⟩
  | '-' :: rest =>
    let preChars := rest.takeWhile (fun c => ¬ (c == '+'))
    let buildPart := rest.dropWhile (fun c => ¬ (c == '+'))
    match parsePreList preChars with
    | none => none
    | some pre =>
      match buildPart with
      | [] => some ⟨op, major, minor, patch, pre⟩
      | _ :: b => (parseBuildList b).map (fun _ => ⟨op, major, minor, patch, pre⟩)
  | '+' :: rest => (parseBuildList rest).map (fun _ => ⟨op, major, minor, patch, []⟩)
  | _ => none

/-- Wildcard minor: accepts `*`, `*.*` and the `x`/`X` spellings. -/
def wildRest (r : List Char) : Bool :=
  match r with
  | [w] => isWildChar w
  | [w, '.', w2] => isWildChar w && isWildChar w2
  | _ => false

/-- Model of a single comparator parse of `semver::VersionReq::parse`. -/
def parseComparator (l0 : List Char) : Option Comparator :=
  let (op, l1, explicitOp) := parseOpSplit l0
  let l2 := l1.dropWhile (fun c => c == ' ')
  let (d1, r1) := takeDigits l2
  match parseNumeric d1 with
  | none => none
  | some major =>
    match r1 with
    | [] => some ⟨op, major, none, none, []⟩
    | '.' :: r2 =>
      if wildRest r2 then
        if explicitOp then none else some ⟨.wildcardOp, major, none, none, []⟩
      else
        let (d2, r3) := takeDigits r2
        match parseNumeric d2 with
        | none => none
        | some minor =>
          match r3 with
          | [] => some ⟨op, major, some minor, none, []⟩
          | '.' :: r4 =>
            if wildRest r4 then
              if explicitOp then none else some ⟨.wildcardOp, major, some minor, none, []⟩
            else
              let (d3, r5) := takeDigits r4
              match parseNumeric d3 with
              | none => none
              | some patch => parseComparatorTail op major (some minor) (some patch) r5
          | _ => none
    | _ => none

/-- Model of `semver::VersionReq::parse`: comma-separated comparators;
`*` alone is the match-everything requirement (no comparators). -/
def versionReqParse (s : String) : Option SemVersionReq :=
  let t := trimList s.toList
  if t = ['*'] ∨ t = ['x'] ∨ t = ['X'] then some ⟨[]⟩
  else if t.isEmpty then none
  else
    let parts := (splitChar ',' t).map trimList
    if parts.any List.isEmpty then none
    else (parts.mapM parseComparator).map SemVersionReq.mk

/-! Comparator matching, translated from the crate's `matches.rs`. -/

def matchesExact (c : Comparator) (v : SemVersion) : Bool :=
  v.major == c.major &&
  (match c.minor with | none => true | some m => v.minor == m) &&
  (match c.patch with | none => true | some p => v.patch == p) &&
  v.pre == c.pre

def matchesGreater (c : Comparator) (v : SemVersion) : Bool :=
  if v.major ≠ c.major then Nat.blt c.major v.major
  else
    match c.minor with
    | none => false
    | some m =>
      if v.minor ≠ m then Nat.blt m v.minor
      else
        match c.patch with
        | none => false
        | some p =>
          if v.patch ≠ p then Nat.blt p v.patch
          else preLtB c.pre v.pre

def matchesLess (c : Comparator) (v : SemVersion) : Bool :=
  if v.major ≠ c.major then Nat.blt v.major c.major
  else
    match c.minor with
    | none => false
    | some m =>
      if v.minor ≠ m then Nat.blt v.minor m
      else
        match c.patch with
        | none => false
        | some p =>
          if v.patch ≠ p then Nat.blt v.patch p
          else preLtB v.pre c.pre

/-- Shared `ver.pre >= cmp.pre` tail of the tilde matcher. -/
def tildePatchTail (c : Comparator) (v : SemVersion) : Bool :=
  match c.patch with
  | some p => if v.patch ≠ p then Nat.blt p v.patch else ! preLtB v.pre c.pre
  | none => ! preLtB v.pre c.pre

def matchesTilde (c : Comparator) (v : SemVersion) : Bool :=
  if v.major ≠ c.major then false
  else
    match c.minor with
    | some m => if v.minor ≠ m then false else tildePatchTail c v
    | none => tildePatchTail c v

def matchesCaret (c : Comparator) (v : SemVersion) : Bool :=
  if v.major ≠ c.major then false
  else
    match c.minor with
    | none => true
    | some minor =>
      match c.patch with
      | none => if c.major > 0 then ! Nat.blt v.minor minor else v.minor == minor
      | some patch =>
        if c.major > 0 then
          (if v.minor ≠ minor then Nat.blt minor v.minor
           else if v.patch ≠ patch then Nat.blt patch v.patch
           else ! preLtB v.pre c.pre)
        else if minor > 0 then
          (if v.minor ≠ minor then false
           else if v.patch ≠ patch then Nat.blt patch v.patch
           else ! preLtB v.pre c.pre)
        else
          (if v.minor ≠ minor ∨ v.patch ≠ patch then false
           else ! preLtB v.pre c.pre)

def matchesComparator (c : Comparator) (v : SemVersion) : Bool :=
  match c.op with
  | .exactOp => matchesExact c v
  | .wildcardOp => matchesExact c v
  | .greaterOp => matchesGreater c v
  | .greaterEqOp => matchesExact c v || matchesGreater c v
  | .lessOp => matchesLess c v
  | .lessEqOp => matchesExact c v || matchesLess c v
  | .tildeOp => matchesTilde c v
  | .caretOp => matchesCaret c v

/-- Model of `semver::VersionReq::matches`, including the rule that a
pre-release version only matches when some comparator carries a pre-release
at the same `major.minor.patch`. -/
def reqMatches (r : SemVersionReq) (v : SemVersion) : Bool :=
  r.comparators.all (fun c => matchesComparator c v) &&
  (v.pre.isEmpty ||
    r.comparators.any (fun c =>
      c.major == v.major && c.minor == some v.minor && c.patch == some v.patch &&
      ¬ c.pre.isEmpty))

/-! ### JSON model (`serde_json::Value`) and parser (`serde_json::from_str`) -/

inductive Json
  | null
  | boolVal (b : Bool)
  | numVal (raw : String)
  | strVal (s : String)
  | arrVal (items : List Json)
  | objVal (fields : List (String × Json))

def Json.isNull : Json → Bool
  | .null => true
  | _ => false

/-- Association-list model of map `insert` (overwrite semantics, as both
`serde_json`'s value map and Rust's `HashMap::insert` have). -/
def mapInsert {α : Type} : List (String × α) → String → α → List (String × α)
  | [], k, v => [(k, v)]
  | e :: rest, k, v => if e.1 = k then (k, v) :: rest else e :: mapInsert rest k v

def mapLookup {α : Type} : List (String × α) → String → Option α
  | [], _ => none
  | e :: rest, k => if e.1 = k then some e.2 else mapLookup rest k

/-- Duplicate object keys: the later entry wins, as in `serde_json`. -/
def buildObjList (pairs : List (String × Json)) : List (String × Json) :=
  pairs.foldl (fun m kv => mapInsert m kv.1 kv.2) []

def skipWs (l : List Char) : List Char := l.dropWhile isWhite

def hexVal (c : Char) : Option Nat :=
  if c.isDigit then some (c.toNat - 48)
  else if 'a' ≤ c ∧ c ≤ 'f' then some (c.toNat - 87)
  else if 'A' ≤ c ∧ c ≤ 'F' then some (c.toNat - 55)
  else none

def jsonEscapeChar : List Char → Option (Char × List Char)
  | '\x22' :: r => some ('\x22', r)
  | '\x5c' :: r => some ('\x5c', r)
  | '/' :: r => some ('/', r)
  | 'b' :: r => some ('\x08', r)
  | 'f' :: r => some ('\x0c', r)
  | 'n' :: r => some ('\n', r)
  | 'r' :: r => some ('\x0d', r)
  | 't' :: r => some ('\t', r)
  | 'u' :: h1 :: h2 :: h3 :: h4 :: r => do
    let a ← hexVal h1
    let b ← hexVal h2
    let c ← hexVal h3
    let d ← hexVal h4
    some (Char.ofNat (((a * 16 + b) * 16 + c) * 16 + d), r)
  | _ => none

/-- Body of a JSON string literal after the opening quote. -/
def jsonStringChars : Nat → List Char → Option (List Char × List Char)
  | _, [] => none
  | 0, _ => none
  | Nat.succ fuel, c :: rest =>
    if c == '\x22' then some ([], rest)
    else if c == '\x5c' then
      match jsonEscapeChar rest with
      | none => none
      | some (e, r) => (jsonStringChars fuel r).map (fun p => (e :: p.1, p.2))
    else if c.toNat < 32 then none
    else (jsonStringChars fuel rest).map (fun p => (c :: p.1, p.2))

def jsonFracLex : List Char → Option (List Char × List Char)
  | '.' :: fr =>
    let (fds, r) := takeDigits fr
    if fds.isEmpty then none else some ('.' :: fds, r)
  | l => some ([], l)

def jsonExpLex : List Char → Option (List Char × List Char)
  | [] => some ([], [])
  | c :: rest =>
    if c == 'e' || c == 'E' then
      let (sgn, r0) :=
        match rest with
        | '+' :: r => (['+'], r)
        | '-' :: r => (['-'], r)
        | r => (([] : List Char), r)
      let (eds, r1) := takeDigits r0
      if eds.isEmpty then none else some (c :: (sgn ++ eds), r1)
    else some ([], c :: rest)

def jsonNumberLex (l : List Char) : Option (List Char × List Char) := do
  let (sign, r0) :=
    match l with
    | '-' :: r => ((['-'] : List Char), r)
    | r => ([], r)
  let (ds, r1) := takeDigits r0
  if ds.isEmpty then none
  else if ds.length > 1 ∧ ds.head? = some '0' then none
  else do
    let (frac, r2) ← jsonFracLex r1
    let (ex, r3) ← jsonExpLex r2
    some (sign ++ ds ++ frac ++ ex, r3)

mutual

def jsonValueFuel : Nat → List Char → Option (Json × List Char)
  | 0, _ => none
  | Nat.succ fuel, l0 =>
    match skipWs l0 with
    | 'n' :: 'u' :: 'l' :: 'l' :: rest => some (.null, rest)
    | 't' :: 'r' :: 'u' :: 'e' :: rest => some (.boolVal true, rest)
    | 'f' :: 'a' :: 'l' :: 's' :: 'e' :: rest => some (.boolVal false, rest)
    | '\x22' :: rest =>
      (jsonStringChars rest.length.succ rest).map (fun p => (.strVal p.1.asString, p.2))
    | '[' :: rest =>
      (match skipWs rest with
       | ']' :: r2 => some (.arrVal [], r2)
       | _ => (jsonArrayItems fuel rest).map (fun p => (.arrVal p.1, p.2)))
    | '\x7b' :: rest =>
      (match skipWs rest with
       | '\x7d' :: r2 => some (.objVal [], r2)
       | _ => (jsonObjMembers fuel rest).map (fun p => (.objVal (buildObjList p.1), p.2)))
    | l => (jsonNumberLex l).map (fun p => (.numVal p.1.asString, p.2))

def jsonArrayItems : Nat → List Char → Option (List Json × List Char)
  | 0, _ => none
  | Nat.succ fuel, l =>
    match jsonValueFuel fuel l with
    | none => none
    | some (v, r) =>
      match skipWs r with
      | ',' :: r2 => (jsonArrayItems fuel r2).map (fun p => (v :: p.1, p.2))
      | ']' :: r2 => some ([v], r2)
      | _ => none

def jsonObjMembers : Nat → List Char → Option (List (String × Json) × List Char)
  | 0, _ => none
  | Nat.succ fuel, l =>
    match skipWs l with
    | '\x22' :: kr =>
      (match jsonStringChars kr.length.succ kr with
       | none => none
       | some (k, r1) =>
         match skipWs r1 with
         | ':' :: r2 =>
           (match jsonValueFuel fuel r2 with
            | none => none
            | some (v, r3) =>
              match skipWs r3 with
              | ',' :: r4 => (jsonObjMembers fuel r4).map (fun p => ((k.asString, v) :: p.1, p.2))
              | '\x7d' :: r4 => some ([(k.asString, v)], r4)
              | _ => none)
         | _ => none)
    | _ => none

end

/-- Model of `serde_json::from_str::<Value>`: one value, trailing whitespace
only. -/
def jsonParse (s : String) : Option Json :=
  match jsonValueFuel (2 * s.toList.length + 4) s.toList with
  | some (v, rest) => if (skipWs rest).isEmpty then some v else none
  | none => none

def escapeJsonChar (c : Char) : List Char :=
  if c == '\x22' then ['\x5c', '\x22']
  else if c == '\x5c' then ['\x5c', '\x5c']
  else [c]

def displayStringLit (s : String) : String :=
  (('\x22' :: (s.toList.map escapeJsonChar).flatten) ++ ['\x22']).asString

mutual

/-- Model of `serde_json::Value`'s `Display`/`to_string` (compact form;
string literals keep their surrounding quotes). -/
def jsonDisplay : Json → String
  | .null => "null"
  | .boolVal true => "true"
  | .boolVal false => "false"
  | .numVal raw => raw
  | .strVal s => displayStringLit s
  | .arrVal items => "[" ++ jsonDisplayItems items ++ "]"
  | .objVal kvs => "\x7b" ++ jsonDisplayMembers kvs ++ "\x7d"

def jsonDisplayItems : List Json → String
  | [] => ""
  | [x] => jsonDisplay x
  | x :: y :: rest => jsonDisplay x ++ "," ++ jsonDisplayItems (y :: rest)

def jsonDisplayMembers : List (String × Json) → String
  | [] => ""
  | [(k, v)] => displayStringLit k ++ ":" ++ jsonDisplay v
  | (k, v) :: kv :: rest =>
    displayStringLit k ++ ":" ++ jsonDisplay v ++ "," ++ jsonDisplayMembers (kv :: rest)

end

/-- `Value::get` with a string key (`None` unless the value is an object). -/
def jsonGetKey (v : Json) (key : String) : Option Json :=
  match v with
  | .objVal kvs => mapLookup kvs key
  | _ => none

/-! ### `composer.rs` data model -/

structure ComposerDependency where
  name : String
  version : String
  line : Nat
deriving DecidableEq

structure InstalledPackage where
  name : String
  version : String
deriving DecidableEq

/-- `versions` models the `HashMap<String, InstalledPackage>` as its
insertion sequence; lookups go through `mapLookup` (duplicates were already
overwritten by `mapInsert` at construction). -/
structure ComposerLockFile where
  versions : List (String × InstalledPackage)
deriving DecidableEq

structure ComposerFile where
  path : String
  dependencies : List ComposerDependency
  dev_dependencies : List ComposerDependency
  lock : Option ComposerLockFile
  dependencies_by_line : List (Nat × String)
deriving DecidableEq

/-! ### `packagist.rs` embedding -/

structure Package where
  name : String
  versions : List String
  description : String
  homepage : String
  authors : List String
  definition_url : String
deriving DecidableEq

/-- Panic payload used to model Rust `unwrap`/`expect` aborts. -/
def panicMsg : String := "called unwrap on a None value"

def versionPanicMsg : String := "Can't get the version string"

def allDigitsNonempty (ds : List Char) : Option Nat :=
  if ds.isEmpty || ¬ (ds.all Char.isDigit) then none else some (digitsToNat ds)

/-- Model of Rust `str::parse::<i32>` (optional sign, digits, i32 range). -/
def parseI32 : List Char → Option Int
  | '-' :: ds => (allDigitsNonempty ds).bind
      (fun n => if n ≤ 2147483648 then some (-(n : Int)) else none)
  | '+' :: ds => (allDigitsNonempty ds).bind
      (fun n => if n ≤ 2147483647 then some ((n : Int)) else none)
  | ds => (allDigitsNonempty ds).bind
      (fun n => if n ≤ 2147483647 then some ((n : Int)) else none)

/-- `installed.replace(".", "").parse::<i32>()` — the digit-concatenation
integer the resolver compares with. -/
def digitConcatInt (s : String) : Option Int :=
  parseI32 (replaceStr s "." "").toList

/-- The release filter of `check_for_package_update` (lines 137-148):
keep versions that parse and match the requirement. -/
def filterMatching (req : SemVersionReq) (versions : List String) : List String :=
  versions.filter (fun ver =>
    match semVersionParse ver with
    | some parsed => reqMatches req parsed
    | none => false)

/-- The strictly-greater loop of `check_for_package_update` (lines 160-169);
`parse::<i32>().unwrap()` panics become `Except.error`. -/
def collectGreater (installedInt : Int) : List String → Except String (List String)
  | [] => .ok []
  | i :: rest =>
    match digitConcatInt i with
    | none => .error panicMsg
    | some n =>
      (collectGreater installedInt rest).map
        (fun tail => if installedInt < n then i :: tail else tail)

/-- Embedding of `check_for_package_update` (packagist.rs lines 126-179). -/
def check_for_package_update (package : Package) (constraint installed : String) :
    Except String (Option String) :=
  match versionReqParse constraint with
  | none => .ok none
  | some req =>
    let matching_versions := filterMatching req package.versions
    match matching_versions with
    | [] => .ok none
    | first :: _ =>
      if installed = "" then .ok (some first)
      else
        match digitConcatInt installed with
        | none => .error panicMsg
        | some installedInt =>
          (collectGreater installedInt matching_versions).map
            (fun matching =>
              match matching with
              | [] => none
              | m :: _ => some m)

/-- Embedding of `parse_or_constraint` (packagist.rs lines 181-202): split on
`||`, resolve each piece, and concatenate the `Some` results into one string. -/
def parse_or_constraint (package : Package) (constraint installed : String) :
    Except String String := do
  let split := (splitSubFuel "||".toList constraint.toList.length constraint.toList).map
    (fun s => replaceStr (replaceStr s.asString "||" "") " " "")
  let versions ← split.mapM (fun item => check_for_package_update package item installed)
  return versions.foldl
    (fun acc a =>
      match a with
      | some ver => acc ++ ver
      | none => acc) ""

/-- Outcome of one registry HTTP interaction, the input that stands for the
network in `get_packages_info`: the send can fail, reading the body text can
fail, or a body string is produced. -/
inductive FetchOutcome
  | sendErr
  | textErr
  | body (s : String)

def emptyPackage : Package := ⟨"", [], "", "", [], ""⟩

/-- The version-collection loop over one package's release array
(packagist.rs lines 56-68): `as_object().unwrap()`, `.expect(...)` and
`as_str().unwrap()` panics become `Except.error`; each version string has
every `v` removed. -/
def extractVersions : List Json → Except String (List String)
  | [] => .ok []
  | item :: rest =>
    match item with
    | .objVal kvs =>
      (match mapLookup kvs "version" with
       | none => .error versionPanicMsg
       | some vVal =>
         match vVal with
         | .strVal s => (extractVersions rest).map (fun tail => replaceStr s "v" "" :: tail)
         | _ => .error panicMsg)
    | _ => .error panicMsg

/-- One task of the `get_packages_info` fan-out (packagist.rs lines 27-106).
`.ok none` is the transport-error `Err` collected by the caller; `.ok (some _)`
is the `Ok(package)` case; `.error` is a panic. -/
def processOne (name : String) (out : FetchOutcome) : Except String (Option Package) :=
  match out with
  | .sendErr => .ok none
  | .textErr => .error panicMsg
  | .body s =>
    let contents := (jsonParse s).getD Json.null
    if ¬ contents.isNull then
      match contents with
      | .objVal kvs =>
        (match mapLookup kvs "packages" with
         | some contentsPackages =>
           (match jsonGetKey contentsPackages name with
            | some (.arrVal items) =>
              (extractVersions items).map (fun vs => some ⟨name, vs, "", "", [], ""⟩)
            | some _ => .ok (some ⟨name, [], "", "", [], ""⟩)
            | none => .ok (some ⟨name, [], "", "", [], ""⟩))
         | none => .ok (some ⟨name, [], "", "", [], ""⟩))
      | _ => .ok (some emptyPackage)
    else .ok (some emptyPackage)

/-- The joined fan-out: results in request order, first panic aborts. -/
def processAll (fetch : String → FetchOutcome) : List ComposerDependency → Except String (List (Option Package))
  | [] => .ok []
  | d :: rest =>
    match processOne d.name (fetch d.name) with
    | .error e => .error e
    | .ok r => (processAll fetch rest).map (fun tail => r :: tail)

/-- The result `HashMap` keyed by `Package::name` (lines 118-121). -/
def buildPackageMap (ps : List Package) : List (String × Package) :=
  ps.foldl (fun m p => mapInsert m p.name p) []

/-- Embedding of `get_packages_info` (packagist.rs lines 24-124) with the
network modelled by `fetch`. -/
def get_packages_info (deps : List ComposerDependency) (fetch : String → FetchOutcome) :
    Except String (List (String × Package)) :=
  (processAll fetch deps).map (fun bodies => buildPackageMap (bodies.filterMap id))

/-- The `Option Package` a dependency contributes to the batch result when its
task does not panic. -/
def fetchContribution (fetch : String → FetchOutcome) (e : ComposerDependency) : Option Package :=
  match processOne e.name (fetch e.name) with
  | .ok r => r
  | .error _ => none

/-! ### `composer.rs` functions -/

/-- The `serde` target struct (composer.rs lines 27-34): both fields default
to empty maps when absent.  Entries are kept in document order here; the
unordered `HashMap` iteration of the Rust code is injected separately as an
explicit order argument of `parse_from_path_ord`. -/
structure ComposerJsonFile where
  require : List (String × String)
  require_dev : List (String × String)
deriving DecidableEq

/-- Decode one `HashMap<String, String>` field: absent means empty, present
non-object or a non-string member value is a deserialization error. -/
def decodeStringMap : Option Json → Option (List (String × String))
  | none => some []
  | some (.objVal kvs) =>
    kvs.mapM (fun kv =>
      match kv.2 with
      | .strVal s => some (kv.1, s)
      | _ => none)
  | some _ => none

/-- Model of `serde_json::from_reader::<ComposerJsonFile>(...).unwrap_or_default()`
(composer.rs lines 79-80): any deserialization failure degrades to the
default (two empty maps). -/
def decodeComposerJsonFile (content : String) : ComposerJsonFile :=
  match jsonParse content with
  | some (.objVal kvs) =>
    (match decodeStringMap (mapLookup kvs "require"),
           decodeStringMap (mapLookup kvs "require-dev") with
     | some r, some d => ⟨r, d⟩
     | _, _ => ⟨[], []⟩)
  | _ => ⟨[], []⟩

/-- The line scan of `get_line_num` (composer.rs lines 213-245): `lineNum` is
1-based; `blockStart` is the last line containing `"block_name":`, and a line
strictly after it containing both the name and the version text wins. -/
def getLineNumAux (blockPat depName depVersion : List Char) :
    List (List Char) → Nat → Nat → Option Nat
  | [], _, _ => none
  | line :: rest, lineNum, blockStart0 =>
    let blockStart := if containsSub blockPat line then lineNum else blockStart0
    if blockStart > 0 ∧ lineNum > blockStart then
      if containsSub depName line ∧ containsSub depVersion line then some lineNum
      else getLineNumAux blockPat depName depVersion rest (lineNum + 1) blockStart
    else getLineNumAux blockPat depName depVersion rest (lineNum + 1) blockStart

/-- Embedding of `ComposerFile::get_line_num`, with the file's text passed in
place of the path re-read. -/
def get_line_num (content block_name dependency_name dependency_version : String) :
    Option Nat :=
  getLineNumAux ('\x22' :: block_name.toList ++ ['\x22', ':'])
    dependency_name.toList dependency_version.toList (linesOf content) 1 0

/-- Lock-file name normalization (composer.rs lines 169-174):
`to_string()` of the JSON value, then strip `"` and `'`. -/
def lockNameOf (v : Json) : String :=
  replaceStr (replaceStr (jsonDisplay v) "\x22" "") "\x27" ""

/-- Lock-file version normalization (composer.rs lines 176-182):
`to_string()` of the JSON value, then strip `"`, then every `v`, then `'`. -/
def lockVersionOf (v : Json) : String :=
  replaceStr (replaceStr (replaceStr (jsonDisplay v) "\x22" "") "v" "") "\x27" ""

/-- The `packages` array walk (composer.rs lines 164-193): non-object items
are skipped; a missing `name` or `version` key panics (`unwrap`); duplicate
names overwrite (last wins). -/
def lockEntriesFold : List Json → List (String × InstalledPackage) →
    Except String (List (String × InstalledPackage))
  | [], acc => .ok acc
  | item :: rest, acc =>
    match item with
    | .objVal kvs =>
      (match mapLookup kvs "name" with
       | none => .error panicMsg
       | some nameVal =>
         match mapLookup kvs "version" with
         | none => .error panicMsg
         | some versionVal =>
           let name := lockNameOf nameVal
           lockEntriesFold rest (mapInsert acc name ⟨name, lockVersionOf versionVal⟩))
    | _ => lockEntriesFold rest acc

/-- Embedding of `ComposerFile::parse_lock_file` (composer.rs lines 132-211),
with the lock file's text (or `none` when unreadable) passed in place of the
derived path.  Unreadable or malformed JSON gives `.ok none`; valid non-null
non-object JSON panics at `as_object().unwrap()`; a present `packages` key
that is not an array panics at `as_array().unwrap()`. -/
def parse_lock_file (lockContent : Option String) : Except String (Option ComposerLockFile) :=
  match lockContent with
  | none => .ok none
  | some data =>
    match jsonParse data with
    | none => .ok none
    | some parsed =>
      if parsed.isNull then .ok none
      else
        match parsed with
        | .objVal kvs =>
          (match mapLookup kvs "packages" with
           | some (.arrVal items) => (lockEntriesFold items []).map (fun vs => some ⟨vs⟩)
           | some _ => .error panicMsg
           | none => .ok (some ⟨[]⟩))
        | _ => .error panicMsg

/-- The dependency-collection loop of `parse_from_path` for one block
(composer.rs lines 83-124): dependencies whose line cannot be located are
dropped (logged); located ones carry `line_num - 1`. -/
def collectBlockDeps (content block : String) (ord : List (String × String)) :
    List ComposerDependency :=
  ord.filterMap (fun nv =>
    match get_line_num content block nv.1 nv.2 with
    | some num => some ⟨nv.1, nv.2, num - 1⟩
    | none => none)

/-- The `dependencies_by_line` insertions of the same loop, in insertion
order (`require` block first, then `require-dev`). -/
def collectBlockLines (content block : String) (ord : List (String × String)) :
    List (Nat × String) :=
  ord.filterMap (fun nv =>
    match get_line_num content block nv.1 nv.2 with
    | some num => some (num - 1, nv.1)
    | none => none)

/-- Embedding of `ComposerFile::parse_from_path` (composer.rs lines 62-130)
with the manifest text and the lock text passed in place of file reads, and
the iteration orders of the two decoded `HashMap`s (`ordR`, `ordD`) passed
explicitly: Rust's `HashMap` iteration order is unspecified, so theorems
constrain them to permutations of the decoded entries. -/
def parse_from_path_ord (path content : String) (lockContent : Option String)
    (ordR ordD : List (String × String)) : Except String (Option ComposerFile) :=
  if ¬ endsWithStr path "composer.json" then .ok none
  else
    (parse_lock_file lockContent).map (fun lock =>
      some
        { path := path
          dependencies := collectBlockDeps content "require" ordR
          dev_dependencies := collectBlockDeps content "require-dev" ordD
          lock := lock
          dependencies_by_line :=
            collectBlockLines content "require" ordR ++
              collectBlockLines content "require-dev" ordD })

/-- `parse_from_path` with the document-order iteration of the decoded maps
(one concrete admissible order). -/
def parse_from_path (path content : String) (lockContent : Option String) :
    Except String (Option ComposerFile) :=
  parse_from_path_ord path content lockContent
    (decodeComposerJsonFile content).require
    (decodeComposerJsonFile content).require_dev

/-! ### `main.rs` on-save diagnostic step -/

structure LspDiagnostic where
  line : Nat
  message : String
deriving DecidableEq

/-- `format!("Update available: {:?}", version)` — `Debug` of a `&str` wraps
it in quotes. -/
def updateMessage (version : String) : String :=
  "Update available: \x22" ++ version ++ "\x22"

/-- The per-dependency body of the `on_save` diagnostics loop (main.rs lines
195-251): empty names are skipped, names without registry data are skipped,
otherwise the resolver runs with the lock-derived installed version (empty
string when no lock, empty lock map, or no entry). -/
def diagnostic_for (updateData : List (String × Package)) (lock : Option ComposerLockFile)
    (item : ComposerDependency) : Except String (Option LspDiagnostic) :=
  if item.name = "" then .ok none
  else
    match mapLookup updateData item.name with
    | none => .ok none
    | some package =>
      let composer_json_version := replaceStr item.version "\x22" ""
      let composer_lock_version :=
        match lock with
        | some lockFile =>
          if lockFile.versions.length > 0 then
            match mapLookup lockFile.versions item.name with
            | some installed => installed.version
            | none => ""
          else ""
        | none => ""
      (check_for_package_update package composer_json_version composer_lock_version).map
        (fun r => r.map (fun version => ⟨item.line, updateMessage version⟩))

/-- The full diagnostics list published by `on_save` (replacing the previous
set wholesale). -/
def on_save_diagnostics (deps : List ComposerDependency)
    (updateData : List (String × Package)) (lock : Option ComposerLockFile) :
    Except String (List LspDiagnostic) :=
  (deps.mapM (diagnostic_for updateData lock)).map (fun ds => ds.filterMap id)

/-- The release list of the repository's own test fixture `get_package_mock`
(packagist.rs lines 277-296). -/
def mockPackage : Package :=
  ⟨"Test", ["2.2.1", "2.1.1", "2.1.0", "2.0.0", "1.9.0", "1.8.1", "1.8.0"], "", "", [], ""⟩

/-! ### Helper lemmas -/

theorem toList_asString (l : List Char) : l.asString.toList = l := rfl

def exceptIsOk {ε α : Type} : Except ε α → Bool
  | .ok _ => true
  | .error _ => false

theorem mapLookup_mapInsert {α : Type} (m : List (String × α)) (k k2 : String) (v : α) :
    mapLookup (mapInsert m k v) k2 = if k = k2 then some v else mapLookup m k2 := by
  induction m with
  | nil => simp [mapInsert, mapLookup]
  | cons e rest ih =>
    simp only [mapInsert]
    by_cases h1 : e.1 = k
    · rw [if_pos h1]
      by_cases h2 : k = k2
      · rw [if_pos h2]
        simp [mapLookup, h2]
      · rw [if_neg h2]
        have h3 : ¬ e.1 = k2 := fun hc => h2 (h1.symm.trans hc)
        simp [mapLookup, h2, h3]
    · rw [if_neg h1]
      by_cases h2 : e.1 = k2
      · have h3 : ¬ k = k2 := fun hc => h1 (h2.trans hc.symm)
        simp [mapLookup, h2, h3]
      · simp [mapLookup, h2, ih]

theorem mapLookup_foldl_insert_not_mem (l : List Package) :
    ∀ (m : List (String × Package)) (k : String), k ∉ l.map Package.name →
      mapLookup (l.foldl (fun acc p => mapInsert acc p.name p) m) k = mapLookup m k := by
  induction l with
  | nil => intro m k _; rfl
  | cons p rest ih =>
    intro m k h
    simp only [List.map_cons, List.mem_cons, not_or] at h
    simp only [List.foldl_cons]
    rw [ih _ _ h.2, mapLookup_mapInsert]
    have h4 : ¬ p.name = k := fun hc => h.1 hc.symm
    rw [if_neg h4]

theorem mapLookup_foldl_insert_self (l : List Package) :
    ∀ (m : List (String × Package)) (p : Package),
      (l.map Package.name).Nodup → p ∈ l →
      mapLookup (l.foldl (fun acc q => mapInsert acc q.name q) m) p.name = some p := by
  induction l with
  | nil => intro m p _ hp; cases hp
  | cons q rest ih =>
    intro m p hnodup hp
    simp only [List.map_cons, List.nodup_cons] at hnodup
    simp only [List.foldl_cons]
    rcases List.mem_cons.mp hp with h | h
    · subst h
      rw [mapLookup_foldl_insert_not_mem _ _ _ hnodup.1, mapLookup_mapInsert]
      simp
    · exact ih _ p hnodup.2 h

theorem processAll_eq_map (fetch : String → FetchOutcome) (deps : List ComposerDependency)
    (h : ∀ e ∈ deps, exceptIsOk (processOne e.name (fetch e.name)) = true) :
    processAll fetch deps = .ok (deps.map (fetchContribution fetch)) := by
  induction deps with
  | nil => rfl
  | cons d rest ih =>
    cases hd : processOne d.name (fetch d.name) with
    | error e =>
      have := h d (by simp)
      rw [hd] at this
      simp [exceptIsOk] at this
    | ok r =>
      simp [processAll, hd, ih (fun e he => h e (by simp [he])), fetchContribution,
        Except.map]

theorem replaceFuel_single (c : Char) :
    ∀ fuel l, l.length ≤ fuel →
      replaceFuel [c] [] fuel l = l.filter (fun x => ! (x == c)) := by
  intro fuel
  induction fuel with
  | zero =>
    intro l hl
    have : l = [] := List.length_eq_zero.mp (Nat.le_zero.mp hl)
    subst this
    rfl
  | succ n ih =>
    intro l hl
    cases l with
    | nil => rfl
    | cons a rest =>
      simp only [List.length_cons, Nat.succ_le_succ_iff] at hl
      by_cases h : c = a
      · subst h
        simp [replaceFuel, startsWithList, List.filter, ih rest hl]
      · have h6 : (a == c) = false := beq_eq_false_iff_ne.mpr (fun hc => h hc.symm)
        have h7 : (c == a) = false := beq_eq_false_iff_ne.mpr h
        simp [replaceFuel, startsWithList, List.filter, h6, h7, ih rest hl]

theorem data_asString (l : List Char) : l.asString.data = l := rfl

theorem replaceStr_single_toList (s : String) (pat : String) (c : Char)
    (h : pat.toList = [c]) :
    (replaceStr s pat "").toList = s.toList.filter (fun x => ! (x == c)) := by
  have h' : pat.data = [c] := h
  show (replaceFuel pat.data [] s.data.length s.data).asString.data = _
  rw [h', data_asString]
  exact replaceFuel_single c s.data.length s.data (Nat.le_refl _)

/-- The three replaces of the lock version normalization, as character
filters. -/
theorem lockVersionOf_toList (v : Json) :
    (lockVersionOf v).toList =
      (((jsonDisplay v).toList.filter (fun x => ! (x == '\x22'))).filter
        (fun x => ! (x == 'v'))).filter (fun x => ! (x == '\x27')) := by
  unfold lockVersionOf
  rw [replaceStr_single_toList _ "\x27" '\x27' rfl,
    show (replaceStr (replaceStr (jsonDisplay v) "\x22" "") "v" "").toList =
      ((replaceStr (jsonDisplay v) "\x22" "").toList.filter (fun x => ! (x == 'v'))) from
      replaceStr_single_toList _ "v" 'v' rfl,
    replaceStr_single_toList _ "\x22" '\x22' rfl]

/-! ### Claim theorems -/

/-- Claim C1 (code_bug evidence): `check_for_package_update` does NOT use
semantic-version precedence when an installed version is present.  With the
single release `2.0.0`, constraint `*` and installed `1.11.0`, semantic
ordering has `1.11.0 < 2.0.0` and `2.0.0` matches the constraint, so the
claimed behaviour is `Some "2.0.0"`; the code concatenates digits
(`1.11.0 → 1110`, `2.0.0 → 200`) and returns `None`.  With releases
`[2.1.0, 2.2.1]` and installed `2.0.0` it returns the first, not the
highest, strictly-greater match. -/
theorem c1_digit_concat_not_semver :
    check_for_package_update ⟨"pkg", ["2.0.0"], "", "", [], ""⟩ "*" "1.11.0" = .ok none
    ∧ semVersionParse "1.11.0" = some ⟨1, 11, 0, [], []⟩
    ∧ semVersionParse "2.0.0" = some ⟨2, 0, 0, [], []⟩
    ∧ semVerLtB ⟨1, 11, 0, [], []⟩ ⟨2, 0, 0, [], []⟩ = true
    ∧ versionReqParse "*" = some ⟨[]⟩
    ∧ reqMatches ⟨[]⟩ ⟨2, 0, 0, [], []⟩ = true
    ∧ check_for_package_update ⟨"pkg", ["2.1.0", "2.2.1"], "", "", [], ""⟩ "*" "2.0.0"
        = .ok (some "2.1.0")
    ∧ semVerLtB ⟨2, 1, 0, [], []⟩ ⟨2, 2, 1, [], []⟩ = true := by
  decide

/-- Claim C2: the full release-table behaviour of `check_for_package_update`
on the repository's own mock release list, without and with an installed
version. -/
theorem c2_resolver_release_table :
    check_for_package_update mockPackage ">2.0" "" = .ok (some "2.2.1")
    ∧ check_for_package_update mockPackage ">=2.0" "" = .ok (some "2.2.1")
    ∧ check_for_package_update mockPackage "<=2.0" "" = .ok (some "2.0.0")
    ∧ check_for_package_update mockPackage "<=2.1" "" = .ok (some "2.1.1")
    ∧ check_for_package_update mockPackage "*" "" = .ok (some "2.2.1")
    ∧ check_for_package_update mockPackage "^1.0" "" = .ok (some "1.9.0")
    ∧ check_for_package_update mockPackage "~1.8" "" = .ok (some "1.8.1")
    ∧ check_for_package_update mockPackage "^2.0" "2.1.0" = .ok (some "2.2.1")
    ∧ check_for_package_update mockPackage "^1.0" "2.2.0" = .ok none
    ∧ check_for_package_update mockPackage "^2.0" "2.2.1" = .ok none := by
  decide

/-- Claim C3 (code_bug evidence): a constraint containing `||` is rejected by
the range parser, so the resolver returns `None` even though a release
satisfies one alternative (`2.2.1` satisfies `^2.2.0`); the unused helper
`parse_or_constraint` does not compute a union either — it concatenates the
per-branch winners into the single string `"2.2.12.2.1"`. -/
theorem c3_or_constraint_unsupported :
    versionReqParse "^2.1.0 || ^2.2.0" = none
    ∧ check_for_package_update mockPackage "^2.1.0 || ^2.2.0" "2.1.0" = .ok none
    ∧ check_for_package_update mockPackage "^2.2.0" "2.1.0" = .ok (some "2.2.1")
    ∧ parse_or_constraint mockPackage "^2.1.0 || ^2.2.0" "2.1.0" = .ok "2.2.12.2.1" := by
  decide

/-- Claim C5 (code_bug evidence): `check_for_package_update` panics
(`parse::<i32>().unwrap()`) when the installed version is not a pure dotted
number — e.g. the realistic lock version `dev-master` — terminating the
process instead of degrading to a logged empty result. -/
theorem c5_resolver_panics_on_unparsable_installed :
    check_for_package_update ⟨"pkg", ["2.0.0"], "", "", [], ""⟩ "*" "dev-master"
      = .error panicMsg := by
  decide

/-- Claim C6: the resolver's error handling — an unparsable constraint yields
`.ok none` (no failure signal); if no release both parses and matches, the
result is `.ok none` whatever the installed string; and a release version
that does not parse as a semantic version is skipped, never fatal (removing
it from the list does not change the result). -/
theorem c6_resolver_error_handling (package : Package) (constraint installed : String) :
    (versionReqParse constraint = none →
      check_for_package_update package constraint installed = .ok none)
    ∧ (∀ req, versionReqParse constraint = some req →
        (∀ v ∈ package.versions, ∀ pv, semVersionParse v = some pv →
          reqMatches req pv = false) →
        check_for_package_update package constraint installed = .ok none)
    ∧ (∀ pre v post, package.versions = pre ++ v :: post → semVersionParse v = none →
        check_for_package_update package constraint installed =
          check_for_package_update { package with versions := pre ++ post }
            constraint installed) := by
  refine ⟨?_, ?_, ?_⟩
  · intro h
    simp [check_for_package_update, h]
  · intro req hreq hall
    have hm : filterMatching req package.versions = [] := by
      unfold filterMatching
      rw [List.filter_eq_nil_iff]
      intro v hv
      cases hpv : semVersionParse v with
      | none => simp [hpv]
      | some pv => simp [hpv, hall v hv pv hpv]
    simp [check_for_package_update, hreq, hm]
  · intro pre v post hveq hv
    have hm : ∀ req, filterMatching req package.versions = filterMatching req (pre ++ post) := by
      intro req
      simp [filterMatching, hveq, List.filter_append, List.filter_cons, hv]
    cases hreq : versionReqParse constraint with
    | none => simp [check_for_package_update, hreq]
    | some req => simp [check_for_package_update, hreq, hm req]

/-- Witness for C6 at concrete inputs: an unparsable constraint, a matching
set that is empty, and an unparsable release version being dropped. -/
theorem c6_resolver_error_handling_witness :
    check_for_package_update ⟨"p", ["1.0.0"], "", "", [], ""⟩ "garbage" "" = .ok none
    ∧ check_for_package_update ⟨"p", ["1.0.0"], "", "", [], ""⟩ "^3.0" "" = .ok none
    ∧ check_for_package_update ⟨"p", ["abc", "1.0.0"], "", "", [], ""⟩ "*" "" =
        check_for_package_update ⟨"p", ["1.0.0"], "", "", [], ""⟩ "*" "" :=
  ⟨(c6_resolver_error_handling ⟨"p", ["1.0.0"], "", "", [], ""⟩ "garbage" "").1 (by decide),
   (c6_resolver_error_handling ⟨"p", ["1.0.0"], "", "", [], ""⟩ "^3.0" "").2.1
     ⟨[⟨.caretOp, 3, some 0, none, []⟩]⟩ (by decide) (by decide),
   (c6_resolver_error_handling ⟨"p", ["abc", "1.0.0"], "", "", [], ""⟩ "*" "").2.2
     [] "abc" ["1.0.0"] rfl (by decide)⟩

/-- The normalization the spec describes for lock versions — strip quote
characters and a single LEADING `v` only — stated for comparison with the
code's `lockVersionOf`. -/
def specLockNormalize (s : String) : String :=
  let noQuotes := s.toList.filter (fun c => ! (c == '\x22') && ! (c == '\x27'))
  (match noQuotes with
   | 'v' :: rest => rest
   | l => l).asString

/-- Claim C8 (amended): lock version normalization strips quote characters
and EVERY occurrence of `v` (not only a leading one).  For versions whose
only `v` is the leading one the claimed round-trip does hold: `"v2.3.1"`
normalizes to `2.3.1`, equal by exact string equality to the registry
release normalization (`replace("v", "")`) of `2.3.1`. -/
theorem c8_normalization_roundtrip :
    lockVersionOf (.strVal "v2.3.1") = "2.3.1"
    ∧ replaceStr "2.3.1" "v" "" = "2.3.1"
    ∧ lockVersionOf (.strVal "v2.3.1") = replaceStr "2.3.1" "v" ""
    ∧ lockVersionOf (.strVal "1.0.0-dev") = "1.0.0-de"
    ∧ (∀ val : Json, 'v' ∉ (lockVersionOf val).toList) := by
  refine ⟨by decide, by decide, by decide, by decide, ?_⟩
  intro val hmem
  rw [lockVersionOf_toList] at hmem
  have h1 := (List.mem_filter.mp hmem).1
  have h2 := (List.mem_filter.mp h1).2
  simp at h2

/-- Counterexample for C8 as stated: on `1.0.0-dev` the code's normalization
also deletes the non-leading `v`, producing `1.0.0-de`, while stripping
quote characters and a leading `v` only would leave `1.0.0-dev`. -/
theorem c8_nonleading_v_counterexample :
    specLockNormalize "1.0.0-dev" = "1.0.0-dev"
    ∧ lockVersionOf (.strVal "1.0.0-dev") = "1.0.0-de"
    ∧ lockVersionOf (.strVal "1.0.0-dev") ≠ specLockNormalize "1.0.0-dev" := by
  decide

/-- Claim C4 (amended): `parse_from_path` returns the not-a-manifest signal
(`Ok(None)`) exactly when the path does not end in `composer.json`; a
document that is not valid JSON does NOT fail — like missing keys, it yields
empty dependency lists, because the decode result is `unwrap_or_default`-ed. -/
theorem c4_failure_iff_not_manifest_path (path content : String) (lockContent : Option String)
    (hlock : ∃ r, parse_lock_file lockContent = .ok r) :
    (parse_from_path path content lockContent = .ok none
      ↔ endsWithStr path "composer.json" = false)
    ∧ (jsonParse content = none → endsWithStr path "composer.json" = true →
        ∃ f, parse_from_path path content lockContent = .ok (some f)
          ∧ f.dependencies = [] ∧ f.dev_dependencies = [] ∧ f.dependencies_by_line = []) := by
  obtain ⟨r, hr⟩ := hlock
  constructor
  · cases hp : endsWithStr path "composer.json" with
    | false => simp [parse_from_path, parse_from_path_ord, hp]
    | true => simp [parse_from_path, parse_from_path_ord, hp, hr, Except.map]
  · intro hjson hp
    have hdec : decodeComposerJsonFile content = ⟨[], []⟩ := by
      unfold decodeComposerJsonFile
      rw [hjson]
    refine ⟨⟨path, [], [], r, []⟩, ?_, rfl, rfl, rfl⟩
    simp [parse_from_path, hdec, parse_from_path_ord, hp, hr, Except.map,
      collectBlockDeps, collectBlockLines]

/-- Witness for C4 at concrete inputs: a non-manifest path yields the
failure signal, and a manifest path with non-JSON text parses to empty
dependency lists. -/
theorem c4_failure_iff_not_manifest_path_witness :
    parse_from_path "a/composer.lock" "x" none = .ok none
    ∧ ∃ f, parse_from_path "a/composer.json" "not json" none = .ok (some f)
        ∧ f.dependencies = [] ∧ f.dev_dependencies = [] ∧ f.dependencies_by_line = [] := by
  constructor
  · exact (c4_failure_iff_not_manifest_path "a/composer.lock" "x" none ⟨none, rfl⟩).1.mpr
      (by decide)
  · exact (c4_failure_iff_not_manifest_path "a/composer.json" "not json" none ⟨none, rfl⟩).2
      rfl rfl

/-- Counterexample for C4 as stated: non-JSON text in a `composer.json`
document does not produce the failure signal — the parse succeeds with empty
dependency lists. -/
theorem c4_invalid_json_counterexample :
    parse_from_path "a/composer.json" "not json" none
      = .ok (some ⟨"a/composer.json", [], [], none, []⟩)
    ∧ parse_from_path "a/composer.json" "not json" none ≠ .ok none := by
  decide

/-- Two-dependency manifest used to exhibit the iteration-order dependence
of `parse_from_path`. -/
def c9doc : String :=
  "\x7b\n\x22require\x22: \x7b\n\x22a/a\x22: \x221.0\x22,\n\x22b/b\x22: \x222.0\x22\n\x7d\n\x7d"

/-- Claim C9 (amended): parsing is deterministic as a function of the text
and the decoder map's (unspecified) iteration order; permuting that order
permutes the Dependency lists and the LineIndex insertion sequence, and
leaves the path and lock unchanged — it does not preserve the list order the
claim asserts. -/
theorem c9_parse_deterministic_up_to_order (path content : String)
    (lockContent : Option String) (ordR ordR2 ordD ordD2 : List (String × String))
    (hR : ordR.Perm ordR2) (hD : ordD.Perm ordD2) :
    (parse_from_path_ord path content lockContent ordR ordD = .ok none
      ∧ parse_from_path_ord path content lockContent ordR2 ordD2 = .ok none)
    ∨ (∃ e, parse_from_path_ord path content lockContent ordR ordD = .error e
        ∧ parse_from_path_ord path content lockContent ordR2 ordD2 = .error e)
    ∨ (∃ f f2,
        parse_from_path_ord path content lockContent ordR ordD = .ok (some f)
        ∧ parse_from_path_ord path content lockContent ordR2 ordD2 = .ok (some f2)
        ∧ f.path = f2.path ∧ f.lock = f2.lock
        ∧ f.dependencies.Perm f2.dependencies
        ∧ f.dev_dependencies.Perm f2.dev_dependencies
        ∧ f.dependencies_by_line.Perm f2.dependencies_by_line) := by
  cases hp : endsWithStr path "composer.json" with
  | false =>
    left
    constructor <;> simp [parse_from_path_ord, hp]
  | true =>
    cases hlock : parse_lock_file lockContent with
    | error e =>
      right; left
      exact ⟨e, by simp [parse_from_path_ord, hp, hlock, Except.map],
        by simp [parse_from_path_ord, hp, hlock, Except.map]⟩
    | ok lock =>
      right; right
      refine ⟨⟨path, collectBlockDeps content "require" ordR,
          collectBlockDeps content "require-dev" ordD, lock,
          collectBlockLines content "require" ordR ++
            collectBlockLines content "require-dev" ordD⟩,
        ⟨path, collectBlockDeps content "require" ordR2,
          collectBlockDeps content "require-dev" ordD2, lock,
          collectBlockLines content "require" ordR2 ++
            collectBlockLines content "require-dev" ordD2⟩,
        by simp [parse_from_path_ord, hp, hlock, Except.map],
        by simp [parse_from_path_ord, hp, hlock, Except.map],
        rfl, rfl, hR.filterMap _, hD.filterMap _,
        (hR.filterMap _).append (hD.filterMap _)⟩

/-- Witness for C9 at a concrete manifest and a transposed iteration order. -/
theorem c9_parse_deterministic_up_to_order_witness :
    (parse_from_path_ord "p/composer.json" c9doc none
        [("a/a", "1.0"), ("b/b", "2.0")] [] = .ok none
      ∧ parse_from_path_ord "p/composer.json" c9doc none
        [("b/b", "2.0"), ("a/a", "1.0")] [] = .ok none)
    ∨ (∃ e, parse_from_path_ord "p/composer.json" c9doc none
          [("a/a", "1.0"), ("b/b", "2.0")] [] = .error e
        ∧ parse_from_path_ord "p/composer.json" c9doc none
          [("b/b", "2.0"), ("a/a", "1.0")] [] = .error e)
    ∨ (∃ f f2,
        parse_from_path_ord "p/composer.json" c9doc none
          [("a/a", "1.0"), ("b/b", "2.0")] [] = .ok (some f)
        ∧ parse_from_path_ord "p/composer.json" c9doc none
          [("b/b", "2.0"), ("a/a", "1.0")] [] = .ok (some f2)
        ∧ f.path = f2.path ∧ f.lock = f2.lock
        ∧ f.dependencies.Perm f2.dependencies
        ∧ f.dev_dependencies.Perm f2.dev_dependencies
        ∧ f.dependencies_by_line.Perm f2.dependencies_by_line) :=
  c9_parse_deterministic_up_to_order "p/composer.json" c9doc none
    [("a/a", "1.0"), ("b/b", "2.0")] [("b/b", "2.0"), ("a/a", "1.0")] [] []
    (List.Perm.swap ("b/b", "2.0") ("a/a", "1.0") []) (List.Perm.refl [])

/-- Counterexample for C9 as stated: one manifest text, two iteration orders
that are both permutations of the decoded `require` map, and the two parses
differ — the Dependency lists come out in different orders. -/
theorem c9_iteration_order_counterexample :
    (decodeComposerJsonFile c9doc).require = [("a/a", "1.0"), ("b/b", "2.0")]
    ∧ List.Perm [("b/b", "2.0"), ("a/a", "1.0")] (decodeComposerJsonFile c9doc).require
    ∧ parse_from_path_ord "p/composer.json" c9doc none
        [("a/a", "1.0"), ("b/b", "2.0")] []
      ≠ parse_from_path_ord "p/composer.json" c9doc none
        [("b/b", "2.0"), ("a/a", "1.0")] [] := by
  refine ⟨by decide, ?_, by decide⟩
  rw [show (decodeComposerJsonFile c9doc).require = [("a/a", "1.0"), ("b/b", "2.0")]
    by decide]
  exact List.Perm.swap ("a/a", "1.0") ("b/b", "2.0") []

/-- Claim C10: when a dependency's registry response body is not valid JSON
(or is JSON `null`), the batch inserts the placeholder package — empty name,
empty release list — keyed by the empty string, so the result map is not
keyed by the requested dependency name. -/
theorem c10_placeholder_package (d : ComposerDependency) (fetch : String → FetchOutcome)
    (s : String) (hbody : fetch d.name = .body s)
    (hbad : ∀ j, jsonParse s = some j → j = Json.null) :
    processOne d.name (fetch d.name) = .ok (some emptyPackage)
    ∧ emptyPackage.name = "" ∧ emptyPackage.versions = []
    ∧ get_packages_info [d] fetch = .ok [("", emptyPackage)]
    ∧ (d.name ≠ "" → mapLookup [("", emptyPackage)] d.name = none) := by
  have hpo : processOne d.name (fetch d.name) = .ok (some emptyPackage) := by
    rw [hbody]
    unfold processOne
    cases hj : jsonParse s with
    | none => simp [hj, Json.isNull]
    | some j =>
      have hnull := hbad j hj
      subst hnull
      simp [hj, Json.isNull]
  refine ⟨hpo, rfl, rfl, ?_, ?_⟩
  · simp [get_packages_info, processAll, hpo, Except.map, buildPackageMap,
      mapInsert, emptyPackage]
  · intro h
    have h2 : ¬ ("" : String) = d.name := fun hc => h hc.symm
    simp [mapLookup, h2]

/-- Witness for C10: requesting `monolog/monolog` against a non-JSON body
yields the empty-name placeholder keyed by the empty string. -/
theorem c10_placeholder_package_witness :
    processOne "monolog/monolog" (.body "not json") = .ok (some emptyPackage)
    ∧ emptyPackage.name = "" ∧ emptyPackage.versions = []
    ∧ get_packages_info [⟨"monolog/monolog", "^2.0", 7⟩] (fun _ => .body "not json")
      = .ok [("", emptyPackage)]
    ∧ (("monolog/monolog" : String) ≠ "" → mapLookup [("", emptyPackage)] "monolog/monolog" = none) :=
  c10_placeholder_package ⟨"monolog/monolog", "^2.0", 7⟩ (fun _ => .body "not json")
    "not json" rfl
    (fun _ h => Option.noConfusion ((rfl : jsonParse "not json" = none).symm.trans h))

/-- Claim C7: in a batch fetch, a dependency whose lookup fails at transport
is omitted from the name-keyed result map while every other dependency still
contributes its package under its own key, and the on-save diagnostic step
yields no diagnostic for the failed name. -/
theorem c7_batch_partial_failure (deps : List ComposerDependency)
    (fetch : String → FetchOutcome) (d : ComposerDependency)
    (hmem : d ∈ deps) (hfail : fetch d.name = .sendErr)
    (hok : ∀ e ∈ deps, exceptIsOk (processOne e.name (fetch e.name)) = true)
    (hother : ∀ e ∈ deps, e ≠ d → ∀ p, fetchContribution fetch e = some p → p.name ≠ d.name)
    (hnodup : ((deps.filterMap (fetchContribution fetch)).map Package.name).Nodup) :
    ∃ m, get_packages_info deps fetch = .ok m
      ∧ mapLookup m d.name = none
      ∧ (∀ e ∈ deps, ∀ p, fetchContribution fetch e = some p → mapLookup m p.name = some p)
      ∧ (∀ lock, diagnostic_for m lock d = .ok none) := by
  have hall : processAll fetch deps = .ok (deps.map (fetchContribution fetch)) :=
    processAll_eq_map fetch deps hok
  have hmap : get_packages_info deps fetch
      = .ok (buildPackageMap (deps.filterMap (fetchContribution fetch))) := by
    simp [get_packages_info, hall, Except.map, List.filterMap_map, Function.comp]
  have hdnone : fetchContribution fetch d = none := by
    unfold fetchContribution
    rw [hfail]
    rfl
  have hnotmem : d.name ∉ (deps.filterMap (fetchContribution fetch)).map Package.name := by
    intro hmem2
    rcases List.mem_map.mp hmem2 with ⟨p, hpmem, hpname⟩
    rcases List.mem_filterMap.mp hpmem with ⟨e, hemem, hcontrib⟩
    by_cases hed : e = d
    · subst hed
      rw [hdnone] at hcontrib
      cases hcontrib
    · exact hother e hemem hed p hcontrib hpname
  have hlookup :
      mapLookup (buildPackageMap (deps.filterMap (fetchContribution fetch))) d.name = none := by
    unfold buildPackageMap
    rw [mapLookup_foldl_insert_not_mem _ _ _ hnotmem]
    rfl
  refine ⟨_, hmap, hlookup, ?_, ?_⟩
  · intro e he p hc
    unfold buildPackageMap
    exact mapLookup_foldl_insert_self _ _ p hnodup (List.mem_filterMap.mpr ⟨e, he, hc⟩)
  · intro lock
    unfold diagnostic_for
    by_cases hdn : d.name = ""
    · rw [if_pos hdn]
    · rw [if_neg hdn, hlookup]

/-- Fetch fixture for the C7 witness: `a/a` fails at transport, `b/b`
returns a normal registry body. -/
def c7body : String :=
  "\x7b\x22packages\x22:\x7b\x22b/b\x22:[\x7b\x22version\x22:\x22v1.2.0\x22\x7d]\x7d\x7d"

def c7fetch : String → FetchOutcome :=
  fun n => if n = "a/a" then .sendErr else .body c7body

def c7depA : ComposerDependency := ⟨"a/a", "^1.0", 1⟩

def c7depB : ComposerDependency := ⟨"b/b", "^1.0", 2⟩

def c7pkgB : Package := ⟨"b/b", ["1.2.0"], "", "", [], ""⟩

/-- Witness for C7: of two dependencies, `a/a` fails at transport and `b/b`
succeeds; the result map omits `a/a`, holds `b/b`'s package, and `a/a` gets
no diagnostic. -/
theorem c7_batch_partial_failure_witness :
    ∃ m, get_packages_info [c7depA, c7depB] c7fetch = .ok m
      ∧ mapLookup m c7depA.name = none
      ∧ (∀ e ∈ [c7depA, c7depB], ∀ p, fetchContribution c7fetch e = some p →
          mapLookup m p.name = some p)
      ∧ (∀ lock, diagnostic_for m lock c7depA = .ok none) := by
  refine c7_batch_partial_failure [c7depA, c7depB] c7fetch c7depA (by decide) rfl
    (by decide) ?_ (by decide)
  intro e he hne p hc
  rcases List.mem_cons.mp he with h | h
  · exact absurd h hne
  · rcases List.mem_cons.mp h with h2 | h2
    · subst h2
      rw [show fetchContribution c7fetch c7depB = some c7pkgB from rfl] at hc
      cases hc
      decide
    · cases h2

end ComposerLsp
